import Mathlib

/-!
Verification of the NFL RAI scoring core (`nfl_rai/feature_engineering.py` and
`nfl_rai/rai_calculator.py`) against its natural-language specification.

Modelling conventions:
* Python floats are modelled as real numbers (`ℝ`).
* A float cell that may hold NaN (the result of `Series.diff`, a skipped
  smoothing pass, a NaN-propagating arithmetic chain) is modelled as
  `Option ℝ`, with `none` standing for NaN.  NaN-propagating arithmetic is
  `omap2`, NaN-skipping reductions (`pandas` `skipna` semantics) are
  `meanSkip` / `cumsumSkip`.
* Raw tracking coordinates and identifiers are exact (`ℚ`, `ℤ`, `String`):
  data files carry decimal values.  Derived kinematic quantities live in `ℝ`.
* Fallible pandas operations (`.iloc[0]` on an empty frame, `raise
  ValueError`) are modelled with `Except String`; the orchestrator's
  `try/except: continue` is `Except.toOption` + `filterMap`.
-/

set_option maxHeartbeats 1600000

/-- `np.clip(x, lo, hi)`. -/
noncomputable def clip (x lo hi : ℝ) : ℝ := min (max x lo) hi

/-- Python / numpy float `%` with a positive modulus: the representative of
`x` modulo `m` in `[0, m)`. -/
noncomputable def rmod (x m : ℝ) : ℝ := x - m * ⌊x / m⌋

/-- NaN-propagating binary float arithmetic. -/
def omap2 (f : ℝ → ℝ → ℝ) : Option ℝ → Option ℝ → Option ℝ
  | some a, some b => some (f a b)
  | _, _ => none

/-- `Series.diff()`: first entry NaN, then consecutive differences (NaN
propagates). -/
def odiff : List (Option ℝ) → List (Option ℝ)
  | [] => []
  | x :: t => none :: List.zipWith (omap2 fun prev cur => cur - prev) (x :: t) t

/-- `Series.fillna(0)` on a float column. -/
def fillna0 (xs : List (Option ℝ)) : List ℝ := xs.map (fun v => v.getD 0)

/-- Helper for `cumsumSkip`. -/
def cumsumSkipAux (acc : ℝ) : List (Option ℝ) → List (Option ℝ)
  | [] => []
  | none :: t => none :: cumsumSkipAux acc t
  | some v :: t => some (acc + v) :: cumsumSkipAux (acc + v) t

/-- `Series.cumsum()` with pandas default `skipna=True`: NaN entries stay NaN,
accumulation continues past them. -/
def cumsumSkip (xs : List (Option ℝ)) : List (Option ℝ) := cumsumSkipAux 0 xs

/-- `Series.mean()` with pandas default `skipna=True`: NaN entries are
dropped; the mean of no valid entries is NaN. -/
noncomputable def meanSkip (xs : List (Option ℝ)) : Option ℝ :=
  let v := xs.filterMap id
  if v.length = 0 then none else some (v.sum / v.length)

/-- `RAICalculator.ROLE_WEIGHTS.get(role, ROLE_WEIGHTS['default'])`: the
role-specific component weights, in dict insertion order. -/
def roleWeights (role : String) : List (String × ℝ) :=
  if role = "Defensive Coverage" then
    [("rtd", -0.25), ("te", 0.20), ("bpq", 0.05), ("cms", 0.35), ("sd", -0.15)]
  else if role = "Targeted Receiver" then
    [("rtd", -0.15), ("te", 0.20), ("bpq", 0.35), ("cms", 0.05), ("sd", 0.25)]
  else if role = "Pass Route" then
    [("rtd", -0.20), ("te", 0.25), ("bpq", 0.30), ("cms", 0.05), ("sd", 0.20)]
  else if role = "Pass Rush" then
    [("rtd", -0.35), ("te", 0.35), ("bpq", 0.05), ("cms", 0.10), ("sd", 0.15)]
  else
    [("rtd", -0.20), ("te", 0.25), ("bpq", 0.20), ("cms", 0.20), ("sd", 0.15)]

/-- `RAICalculator.NORMS.get(component, {'mean': 0, 'std': 1})` as a
(mean, std) pair. -/
def norms (component : String) : ℝ × ℝ :=
  if component = "rtd" then (4.0, 2.0)
  else if component = "te" then (0.85, 0.10)
  else if component = "bpq" then (0.60, 0.15)
  else if component = "cms" then (0.50, 0.25)
  else if component = "sd" then (0.0, 2.0)
  else (0, 1)

/-- `RAICalculator.JERK_THRESHOLDS.get(role, JERK_THRESHOLDS['default'])`. -/
def jerkThresholds (role : String) : ℝ :=
  if role = "Defensive Coverage" then 8.0
  else if role = "Pass Rush" then 12.0
  else if role = "Pass Route" then 6.0
  else if role = "Targeted Receiver" then 5.0
  else if role = "Pass Block" then 10.0
  else 8.0

/-- `RAICalculator.normalize_component`. -/
noncomputable def normalizeComponent (value : ℝ) (component : String) : ℝ :=
  (value - (norms component).1) / (norms component).2

/-- `RAICalculator.calculate_composite_rai`.  The component dict is an
association list of possibly-NaN floats; `rai` starts at `0.0` and each
weighted, normalized component present in the dict is added in turn. -/
noncomputable def calculateCompositeRai (components : List (String × Option ℝ))
    (role : String) : Option ℝ :=
  (roleWeights role).foldl
    (fun rai cw =>
      match components.lookup cw.1 with
      | some v => omap2 (· + ·) rai (v.map fun x => cw.2 * normalizeComponent x cw.1)
      | none => rai)
    (some 0)

/-- Modelled from the spec, for comparison: the signed role weight table of
§4.4 (the `default` row for roles not listed). -/
def specWeight (role component : String) : ℝ :=
  if role = "Defensive Coverage" then
    (if component = "rtd" then -0.25 else if component = "te" then 0.20
     else if component = "bpq" then 0.05 else if component = "cms" then 0.35
     else if component = "sd" then -0.15 else 0)
  else if role = "Targeted Receiver" then
    (if component = "rtd" then -0.15 else if component = "te" then 0.20
     else if component = "bpq" then 0.35 else if component = "cms" then 0.05
     else if component = "sd" then 0.25 else 0)
  else if role = "Pass Route" then
    (if component = "rtd" then -0.20 else if component = "te" then 0.25
     else if component = "bpq" then 0.30 else if component = "cms" then 0.05
     else if component = "sd" then 0.20 else 0)
  else if role = "Pass Rush" then
    (if component = "rtd" then -0.35 else if component = "te" then 0.35
     else if component = "bpq" then 0.05 else if component = "cms" then 0.10
     else if component = "sd" then 0.15 else 0)
  else
    (if component = "rtd" then -0.20 else if component = "te" then 0.25
     else if component = "bpq" then 0.20 else if component = "cms" then 0.20
     else if component = "sd" then 0.15 else 0)

/-- One row of a processed player-tracking frame (`process_player_tracking`
output): raw exact coordinates plus derived float columns, `Option ℝ` where
NaN can occur. -/
structure ProcRow where
  frame_id : ℤ
  x : ℚ
  y : ℚ
  speed_calc : Option ℝ
  direction_calc : Option ℝ
  jerk_magnitude : Option ℝ
  path_efficiency : ℝ
  curvature : Option ℝ

/-- A numpy float comparison `jerk > threshold`: false on NaN. -/
noncomputable def exceeds (j : Option ℝ) (t : ℝ) : Bool :=
  match j with
  | some v => decide (t < v)
  | none => false

/-- `all(above_thresh[i:i + min_frames])`. -/
def runAt (above : List Bool) (k i : ℕ) : Bool :=
  ((above.drop i).take k).all id

/-- The loop `for i in range(len(above_thresh) - min_frames + 1)` of
`FeatureEngineer.detect_reaction_frame`, started at `i`. -/
def findRunFrom (above : List Bool) (k i : ℕ) : Option ℕ :=
  if h : i + k ≤ above.length then
    if runAt above k i then some i else findRunFrom above k (i + 1)
  else none
termination_by above.length + 1 - i
decreasing_by omega

/-- `FeatureEngineer.detect_reaction_frame`: first sustained region of the
jerk-magnitude column above `threshold`, returned as the `frame_id` value of
the starting row, else `None`. -/
noncomputable def detectReactionFrame (rows : List ProcRow) (threshold : ℝ)
    (minFrames : ℕ) : Option ℤ :=
  (findRunFrom (rows.map (fun r => exceeds r.jerk_magnitude threshold)) minFrames 0).bind
    fun i => (rows.get? i).map (·.frame_id)

/-- `RAICalculator.calculate_rtd` (the processed frame is the input; the
role picks the jerk threshold, `min_frames` is 2). -/
noncomputable def calculateRtd (rows : List ProcRow) (role : String) : ℝ :=
  match detectReactionFrame rows (jerkThresholds role) 2 with
  | none => (rows.length : ℝ)
  | some f => (f : ℝ)

/-- The jerk-magnitude sample of row `m` (NaN when out of range — such
indices are never consulted under the run bound). -/
def jerkAt (rows : List ProcRow) (m : ℕ) : Option ℝ :=
  (rows.get? m).bind (fun r => r.jerk_magnitude)

/-- Modelled from the spec (§4.2): `k` consecutive samples starting at series
index `i` all exceed the threshold. -/
def specRun (rows : List ProcRow) (t : ℝ) (k i : ℕ) : Prop :=
  i + k ≤ rows.length ∧ ∀ j < k, exceeds (jerkAt rows (i + j)) t = true

/-- One raw row of the post-event (output) tracking table. -/
structure RawRow where
  nfl_id : ℤ
  frame_id : ℤ
  x : ℚ
  y : ℚ
deriving DecidableEq

/-- One raw row of the pre-event (input) tracking table (only the columns the
scoring core reads). -/
structure InputRow where
  nfl_id : ℤ
  player_role : String
deriving DecidableEq

/-- The pre-event table: its rows plus whether the `player_role` column is
present at all. -/
structure InputDF where
  hasRoleColumn : Bool
  rows : List InputRow

/-- Insertion step for `sortByFrame`. -/
def insertByFrame (r : RawRow) : List RawRow → List RawRow
  | [] => [r]
  | s :: t => if r.frame_id ≤ s.frame_id then r :: s :: t else s :: insertByFrame r t

/-- `DataFrame.sort_values('frame_id')`. -/
def sortByFrame (rows : List RawRow) : List RawRow := rows.foldr insertByFrame []

/-- scipy `'reflect'` boundary indexing (period `2n`, half-sample symmetry). -/
def reflIdx (n : ℕ) (i : ℤ) : ℕ :=
  if n = 0 then 0
  else
    let j := i % (2 * (n : ℤ))
    if j < (n : ℤ) then j.toNat else (2 * (n : ℤ) - 1 - j).toNat

/-- The unnormalized Gaussian kernel weight `exp(-t² / (2σ²))`. -/
noncomputable def gaussWeight (σ : ℝ) (t : ℤ) : ℝ :=
  Real.exp (-((t : ℝ) ^ 2) / (2 * σ ^ 2))

/-- `scipy.ndimage.gaussian_filter1d(xs, σ)` with the default `truncate=4.0`
and `mode='reflect'`: kernel radius `int(4σ + 0.5)`, normalized Gaussian
weights, correlation with reflected boundary. -/
noncomputable def gaussianFilter1d (σ : ℝ) (xs : List ℝ) : List ℝ :=
  let lw : ℤ := ⌊4 * σ + 1 / 2⌋
  let z : ℝ := ∑ t in Finset.Icc (-lw) lw, gaussWeight σ t
  (List.range xs.length).map (fun i =>
    ∑ t in Finset.Icc (-lw) lw,
      (gaussWeight σ t / z) * xs.getD (reflIdx xs.length ((i : ℤ) + t)) 0)

/-- The `if len(df) > 3: column = gaussian_filter1d(column.fillna(0), σ)`
pattern of `calculate_velocity` / `calculate_acceleration`. -/
noncomputable def smoothIf (σ : ℝ) (n : ℕ) (xs : List (Option ℝ)) : List (Option ℝ) :=
  if 3 < n then (gaussianFilter1d σ (fillna0 xs)).map some else xs

/-- numpy `arctan2`. -/
noncomputable def atan2 (y x : ℝ) : ℝ :=
  if 0 < x then Real.arctan (y / x)
  else if x < 0 then
    (if 0 ≤ y then Real.arctan (y / x) + Real.pi else Real.arctan (y / x) - Real.pi)
  else if 0 < y then Real.pi / 2
  else if y < 0 then -(Real.pi / 2)
  else 0

/-- `np.degrees`. -/
noncomputable def degOf (x : ℝ) : ℝ := x * 180 / Real.pi

/-- Euclidean distance between two exact points, as a float. -/
noncomputable def dist2 (p q : ℚ × ℚ) : ℝ :=
  Real.sqrt (((q.1 : ℝ) - (p.1 : ℝ)) ^ 2 + ((q.2 : ℝ) - (p.2 : ℝ)) ^ 2)

/-- `sqrt(x.diff()**2 + y.diff()**2)`: the frame-to-frame distance column
(first entry NaN). -/
noncomputable def frameDist : List (ℚ × ℚ) → List (Option ℝ)
  | [] => []
  | p :: t => none :: List.zipWith (fun a b => some (dist2 a b)) (p :: t) t

/-- One output row of `calculate_path_metrics`. -/
structure PathRow where
  path_length : Option ℝ
  straight_line_dist : ℝ
  path_efficiency : ℝ
  curvature : Option ℝ

/-- `FeatureEngineer.calculate_path_metrics`: on fewer than 2 samples all
four columns are constant; otherwise cumulative path length (NaN-skipping
cumsum of frame distances), straight-line distance from the first sample,
`np.where(path_length > 0.1, sld / path_length, 1.0)`, and — when a
`direction_calc` column is present — wrapped direction-difference curvature
`|((Δdir + 180) % 360) - 180| / (frame_dist + 0.01)`. -/
noncomputable def calculatePathMetrics (pts : List (ℚ × ℚ))
    (dirs : Option (List (Option ℝ))) : List PathRow :=
  if pts.length < 2 then
    pts.map (fun _ => ⟨some 0, 0, 1, some 0⟩)
  else
    let fd := frameDist pts
    let pl := cumsumSkip fd
    let p0 := pts.headD (0, 0)
    let sld := pts.map (fun p => dist2 p0 p)
    let pe := List.zipWith
      (fun plv s =>
        match plv with
        | some v => if 0.1 < v then s / v else 1
        | none => 1)
      pl sld
    let curv :=
      match dirs with
      | some ds => List.zipWith
          (omap2 fun dd f => |rmod (dd + 180) 360 - 180| / (f + 0.01)) (odiff ds) fd
      | none => pts.map (fun _ => some 0)
    (List.range pts.length).map (fun i =>
      ⟨(pl.get? i).getD none, (sld.get? i).getD 0, (pe.get? i).getD 1,
        (curv.get? i).getD none⟩)

/-- `FeatureEngineer.process_player_tracking`: sort by frame, derive
velocity (smoothed when more than 3 samples), speed, direction,
acceleration (smoothed likewise), jerk, and path metrics. -/
noncomputable def processPlayerTracking (σ : ℝ) (rows : List RawRow) : List ProcRow :=
  let sorted := sortByFrame rows
  let n := sorted.length
  let vx := smoothIf σ n
    ((odiff (sorted.map (fun r => some ((r.x : ℝ))))).map (Option.map (fun d => d / 0.1)))
  let vy := smoothIf σ n
    ((odiff (sorted.map (fun r => some ((r.y : ℝ))))).map (Option.map (fun d => d / 0.1)))
  let speed := List.zipWith (omap2 fun a b => Real.sqrt (a ^ 2 + b ^ 2)) vx vy
  let dir := List.zipWith (omap2 fun b a => rmod (degOf (atan2 b a)) 360) vy vx
  let ax := smoothIf σ n ((odiff vx).map (Option.map (fun d => d / 0.1)))
  let ay := smoothIf σ n ((odiff vy).map (Option.map (fun d => d / 0.1)))
  let jx := (odiff ax).map (Option.map (fun d => d / 0.1))
  let jy := (odiff ay).map (Option.map (fun d => d / 0.1))
  let jerk := List.zipWith (omap2 fun a b => Real.sqrt (a ^ 2 + b ^ 2)) jx jy
  let path := calculatePathMetrics (sorted.map (fun r => (r.x, r.y))) (some dir)
  (List.range n).map (fun i =>
    { frame_id := ((sorted.get? i).map (fun r => r.frame_id)).getD 0
      x := ((sorted.get? i).map (fun r => r.x)).getD 0
      y := ((sorted.get? i).map (fun r => r.y)).getD 0
      speed_calc := (speed.get? i).getD none
      direction_calc := (dir.get? i).getD none
      jerk_magnitude := (jerk.get? i).getD none
      path_efficiency := ((path.get? i).map (fun p => p.path_efficiency)).getD 1
      curvature := ((path.get? i).map (fun p => p.curvature)).getD none })

/-- `RAICalculator.calculate_te`: last `path_efficiency` value clamped to
[0, 1]; `none` models the `IndexError` of `.iloc[-1]` on an empty frame. -/
noncomputable def calculateTe (rows : List ProcRow) : Option ℝ :=
  rows.getLast?.map (fun r => clip r.path_efficiency 0 1)

/-- `RAICalculator.calculate_cms` (target supplied as a point): neutral 0.5
under 3 frames, else `1 - mean(|((ideal - actual + 180) % 360) - 180|) / 180`
clamped to [0, 1], the ideal bearing being `degrees(arctan2(by - y, bx - x))
% 360`; `none` models the NaN produced when no frame has a valid direction. -/
noncomputable def calculateCms (rows : List ProcRow) (ball : ℚ × ℚ) : Option ℝ :=
  if rows.length < 3 then some (1 / 2)
  else
    (meanSkip (rows.map (fun r =>
      r.direction_calc.map (fun d =>
        |rmod (rmod (degOf (atan2 ((ball.2 : ℝ) - (r.y : ℝ)) ((ball.1 : ℝ) - (r.x : ℝ)))) 360
          - d + 180) 360 - 180|)))).map
      (fun a => clip (1 - a / 180) 0 1)

/-- The inner merge on `frame_id` of
`FeatureEngineer.calculate_player_separation` (pandas keeps the left key
order). -/
def mergeByFrame (a b : List (ℤ × ℚ × ℚ)) : List ((ℤ × ℚ × ℚ) × (ℤ × ℚ × ℚ)) :=
  a.bind (fun r => (b.filter (fun s => s.1 == r.1)).map (fun s => (r, s)))

/-- `FeatureEngineer.calculate_player_separation`: frame id and pairwise
Euclidean distance over the merged frames. -/
noncomputable def calculatePlayerSeparation (a b : List (ℤ × ℚ × ℚ)) : List (ℤ × ℝ) :=
  (mergeByFrame a b).map (fun p =>
    (p.1.1,
      Real.sqrt (((p.1.2.1 : ℝ) - (p.2.2.1 : ℝ)) ^ 2 + ((p.1.2.2 : ℝ) - (p.2.2.2 : ℝ)) ^ 2)))

/-- `RAICalculator.calculate_sd`: final minus initial separation, 0.0 when
fewer than 2 common frames. -/
noncomputable def calculateSd (a b : List (ℤ × ℚ × ℚ)) : ℝ :=
  let sep := calculatePlayerSeparation a b
  if sep.length < 2 then 0
  else (sep.getLast?.map Prod.snd).getD 0 - (sep.head?.map Prod.snd).getD 0

/-- The valid (non-NaN) curvature entries with their row positions
(`df['curvature'].dropna()`). -/
def validCurv (rows : List ProcRow) : List (ℕ × ℝ) :=
  (List.range rows.length).filterMap (fun i =>
    ((rows.get? i).bind (fun r => r.curvature)).map (fun c => (i, c)))

/-- `Series.idxmax()`: position of the first entry attaining the maximum. -/
noncomputable def firstArgmax : List (ℕ × ℝ) → ℕ
  | [] => 0
  | p :: t => (t.foldl (fun best q => if best.2 < q.2 then q else best) p).1

/-- `FeatureEngineer.calculate_break_quality`. -/
noncomputable def calculateBreakQuality (rows : List ProcRow)
    (breakFrame : Option ℤ) : ℝ :=
  if rows.length < 3 then 1 / 2
  else if (validCurv rows).length = 0 then 1 / 2
  else
    let posO : Option ℕ :=
      match breakFrame with
      | none => some (firstArgmax (validCurv rows))
      | some bf => (List.range rows.length).find? (fun i =>
          ((rows.get? i).map (fun r => r.frame_id)).getD 0 == bf)
    match posO with
    | none => 1 / 2
    | some pos =>
      let preS := ((rows.drop (pos - 3)).take (pos - (pos - 3))).filterMap
        (fun r => r.speed_calc)
      let postS := ((rows.drop pos).take 4).filterMap (fun r => r.speed_calc)
      let preSpeed := if preS.length = 0 then (0 : ℝ) else preS.sum / preS.length
      let postSpeed := if postS.length = 0 then (0 : ℝ) else postS.sum / postS.length
      let sm := if preSpeed < 0.1 then 1 / 2 else min (postSpeed / (preSpeed + 0.1)) 1
      let curvB := ((rows.get? pos).bind (fun r => r.curvature)).getD 0
      let cs := min (curvB / 50) 1
      0.6 * sm + 0.4 * cs

/-- One scored player record (`RAIComponents` dataclass); `cms` and `rai` are
the two fields that can carry NaN. -/
structure RAIComponents where
  rtd : ℝ
  te : ℝ
  bpq : ℝ
  cms : Option ℝ
  sd : ℝ
  rai : Option ℝ
  player_role : String
  nfl_id : ℤ

/-- The role lookup of `calculate_player_rai`:
`player_input['player_role'].iloc[0] if 'player_role' in columns else
'default'`; `.iloc[0]` raises on a player absent from the pre-event data. -/
def playerRole (inp : InputDF) (nflId : ℤ) : Except String String :=
  if inp.hasRoleColumn then
    match inp.rows.filter (fun r => r.nfl_id == nflId) with
    | [] => Except.error "IndexError: player_role iloc on empty selection"
    | r :: _ => Except.ok r.player_role
  else Except.ok "default"

/-- `RAICalculator.calculate_player_rai`: raises on a player with no
post-event rows, then extracts the role, processes the tracking, and scores
the five components (break quality only for route-running roles, coverage
maintenance only for `Defensive Coverage`, separation only when a comparison
entity is supplied). -/
noncomputable def calculatePlayerRai (σ : ℝ) (inp : InputDF) (out : List RawRow)
    (nflId : ℤ) (ballx bally : ℚ) (opp : Option (List (ℤ × ℚ × ℚ))) :
    Except String RAIComponents :=
  let playerOutput := sortByFrame (out.filter (fun r => r.nfl_id == nflId))
  if playerOutput.length = 0 then
    Except.error "No output data for player"
  else
    match playerRole inp nflId with
    | Except.error e => Except.error e
    | Except.ok role =>
      let proc := processPlayerTracking σ playerOutput
      let rtd := calculateRtd proc role
      match calculateTe proc with
      | none => Except.error "IndexError: path_efficiency iloc on empty frame"
      | some te =>
        let bpq := if role = "Pass Route" ∨ role = "Targeted Receiver" then
            calculateBreakQuality proc none
          else (1 : ℝ) / 2
        let cms := if role = "Defensive Coverage" then
            calculateCms proc (ballx, bally)
          else some ((1 : ℝ) / 2)
        let sd := match opp with
          | some oppRows =>
              calculateSd (proc.map (fun r => (r.frame_id, r.x, r.y))) oppRows
          | none => (0 : ℝ)
        let components := [("rtd", some rtd), ("te", some te), ("bpq", some bpq),
          ("cms", cms), ("sd", some sd)]
        Except.ok
          { rtd := rtd, te := te, bpq := bpq, cms := cms, sd := sd
            rai := calculateCompositeRai components role
            player_role := role, nfl_id := nflId }

/-- `Series.unique()`: distinct values in first-occurrence order. -/
def uniqueIds : List ℤ → List ℤ
  | [] => []
  | a :: t => a :: uniqueIds (t.filter (fun b => b ≠ a))
termination_by l => l.length
decreasing_by
  simp only [List.length_cons]
  exact Nat.lt_succ_of_le (List.length_filter_le _ _)

/-- `RAICalculator.calculate_play_rai`: every distinct `nfl_id` of the
post-event table is scored; the `try/except: continue` is modelled with
`Except.toOption` and `filterMap`. -/
noncomputable def calculatePlayRai (σ : ℝ) (inp : InputDF) (out : List RawRow)
    (ballx bally : ℚ) : List RAIComponents :=
  (uniqueIds (out.map (fun r => r.nfl_id))).filterMap
    (fun nid => (calculatePlayerRai σ inp out nid ballx bally none).toOption)

/-- Modelled from the spec (§4.1): cumulative path length up to row `i` —
the sum of the consecutive Euclidean frame-to-frame distances so far. -/
noncomputable def specPL (pts : List (ℚ × ℚ)) (i : ℕ) : ℝ :=
  ∑ j in Finset.range i, dist2 (pts.getD j (0, 0)) (pts.getD (j + 1) (0, 0))

/-- Modelled from the spec (§4.1): straight-line distance from the first
sample to the sample at row `i`. -/
noncomputable def specSLD (pts : List (ℚ × ℚ)) (i : ℕ) : ℝ :=
  dist2 (pts.getD 0 (0, 0)) (pts.getD i (0, 0))

/-- The pairwise Euclidean separation of one merged frame pair. -/
noncomputable def pairSep (u : (ℤ × ℚ × ℚ) × (ℤ × ℚ × ℚ)) : ℝ :=
  Real.sqrt (((u.1.2.1 : ℝ) - (u.2.2.1 : ℝ)) ^ 2 + ((u.1.2.2 : ℝ) - (u.2.2.2 : ℝ)) ^ 2)

/-- Exact squared distance of a merged frame pair. -/
def sqDist (u : (ℤ × ℚ × ℚ) × (ℤ × ℚ × ℚ)) : ℚ :=
  (u.1.2.1 - u.2.2.1) ^ 2 + (u.1.2.2 - u.2.2.2) ^ 2

/-- Exact relative displacement (entity A minus entity B) of a merged frame
pair. -/
def relDisp (u : (ℤ × ℚ × ℚ) × (ℤ × ℚ × ℚ)) : ℚ × ℚ :=
  (u.1.2.1 - u.2.2.1, u.1.2.2 - u.2.2.2)

/-- Modelled from the spec (§4.3): wrap an angle difference to [-180, 180). -/
noncomputable def wrap180 (x : ℝ) : ℝ := rmod (x + 180) 360 - 180

/-- Modelled from the spec (§4.3): the ideal bearing (degrees) from a
position to the target point. -/
noncomputable def specBearing (p ball : ℚ × ℚ) : ℝ :=
  degOf (atan2 ((ball.2 : ℝ) - (p.2 : ℝ)) ((ball.1 : ℝ) - (p.1 : ℝ)))

/-- Modelled from the spec (§4.3): CoverageMaintenanceScore — neutral 0.5
under 3 frames, else `1 − mean |wrapped (bearing − movement direction)| / 180`
clamped to [0, 1]. -/
noncomputable def specCms (rows : List ProcRow) (ball : ℚ × ℚ) : ℝ :=
  if rows.length < 3 then 1 / 2
  else
    clip (1 - ((rows.map (fun r =>
      |wrap180 (specBearing (r.x, r.y) ball - r.direction_calc.getD 0)|)).sum
        / rows.length) / 180) 0 1

/-- Mean of a list, 0.0 when empty (the `if len > 0 else 0.0` pattern). -/
noncomputable def meanOr0 (xs : List ℝ) : ℝ :=
  if xs.length = 0 then 0 else xs.sum / xs.length

/-- Modelled from the spec (§4.3): mean valid speed over the up-to-3 frames
before the break. -/
noncomputable def specPreSpeed (rows : List ProcRow) (pos : ℕ) : ℝ :=
  meanOr0 (((rows.drop (pos - 3)).take (pos - (pos - 3))).filterMap (fun r => r.speed_calc))

/-- Modelled from the spec (§4.3): mean valid speed over the break frame and
the up-to-3 frames after it. -/
noncomputable def specPostSpeed (rows : List ProcRow) (pos : ℕ) : ℝ :=
  meanOr0 (((rows.drop pos).take 4).filterMap (fun r => r.speed_calc))

/-- Modelled from the spec (§4.3): speed maintenance
`min(post / (pre + 0.1), 1.0)`, 0.5 when the pre-break mean speed is below
0.1 yd/s. -/
noncomputable def specSpeedMaintenance (rows : List ProcRow) (pos : ℕ) : ℝ :=
  if specPreSpeed rows pos < 0.1 then 1 / 2
  else min (specPostSpeed rows pos / (specPreSpeed rows pos + 0.1)) 1

/-- Modelled from the spec (§4.3): curvature score
`min(curvature-at-break / 50, 1.0)`, NaN curvature defaulting to 0. -/
noncomputable def specCurvScore (rows : List ProcRow) (pos : ℕ) : ℝ :=
  min ((((rows.get? pos).bind (fun r => r.curvature)).getD 0) / 50) 1

/-- The auto-detected break position: first row attaining the maximal valid
curvature. -/
noncomputable def specBreakPos (rows : List ProcRow) : ℕ :=
  firstArgmax (validCurv rows)

/-- C1: for every role label and every component dictionary containing the
five keys `rtd`, `te`, `bpq`, `cms`, `sd` (with non-NaN values),
`calculate_composite_rai` returns exactly the sum over the five components of
the §4.4 signed role weight (default row for unlisted roles) times the
z-normalized value, with the normalization constants
rtd (4.0, 2.0), te (0.85, 0.10), bpq (0.60, 0.15), cms (0.50, 0.25),
sd (0.0, 2.0). -/
theorem c1_composite_rai (role : String) (components : List (String × Option ℝ))
    (vr vt vb vc vs : ℝ)
    (hr : components.lookup "rtd" = some (some vr))
    (ht : components.lookup "te" = some (some vt))
    (hb : components.lookup "bpq" = some (some vb))
    (hc : components.lookup "cms" = some (some vc))
    (hs : components.lookup "sd" = some (some vs)) :
    calculateCompositeRai components role =
      some (specWeight role "rtd" * ((vr - 4.0) / 2.0)
        + specWeight role "te" * ((vt - 0.85) / 0.10)
        + specWeight role "bpq" * ((vb - 0.60) / 0.15)
        + specWeight role "cms" * ((vc - 0.50) / 0.25)
        + specWeight role "sd" * ((vs - 0.0) / 2.0)) := by
  by_cases h1 : role = "Defensive Coverage"
  · simp [calculateCompositeRai, roleWeights, specWeight, h1, hr, ht, hb, hc, hs,
      omap2, normalizeComponent, norms]
  · by_cases h2 : role = "Targeted Receiver"
    · simp [calculateCompositeRai, roleWeights, specWeight, h1, h2, hr, ht, hb, hc, hs,
        omap2, normalizeComponent, norms]
    · by_cases h3 : role = "Pass Route"
      · simp [calculateCompositeRai, roleWeights, specWeight, h1, h2, h3, hr, ht, hb, hc, hs,
          omap2, normalizeComponent, norms]
      · by_cases h4 : role = "Pass Rush"
        · simp [calculateCompositeRai, roleWeights, specWeight, h1, h2, h3, h4,
            hr, ht, hb, hc, hs, omap2, normalizeComponent, norms]
        · simp [calculateCompositeRai, roleWeights, specWeight, h1, h2, h3, h4,
            hr, ht, hb, hc, hs, omap2, normalizeComponent, norms]

/-- C1 witness: the theorem applied to a concrete five-key dictionary and the
role label `Defensive Coverage`. -/
theorem c1_composite_rai_witness :
    calculateCompositeRai
      [("rtd", some 2), ("te", some 1), ("bpq", some 1), ("cms", some 1), ("sd", some 1)]
      "Defensive Coverage" =
      some (specWeight "Defensive Coverage" "rtd" * ((2 - 4.0) / 2.0)
        + specWeight "Defensive Coverage" "te" * ((1 - 0.85) / 0.10)
        + specWeight "Defensive Coverage" "bpq" * ((1 - 0.60) / 0.15)
        + specWeight "Defensive Coverage" "cms" * ((1 - 0.50) / 0.25)
        + specWeight "Defensive Coverage" "sd" * ((1 - 0.0) / 2.0)) :=
  c1_composite_rai "Defensive Coverage" _ 2 1 1 1 1 rfl rfl rfl rfl rfl

lemma runAt_eq_true_iff (l : List Bool) (k i : ℕ) (h : i + k ≤ l.length) :
    runAt l k i = true ↔ ∀ j < k, l.getD (i + j) false = true := by
  unfold runAt
  rw [List.all_eq_true]
  constructor
  · intro hall j hj
    have hlt : i + j < l.length := by omega
    have hget : ((l.drop i).take k).get? j = some (l.getD (i + j) false) := by
      rw [List.get?_take hj, List.get?_drop, List.get?_eq_get hlt,
        List.getD_eq_get l false hlt]
    exact hall _ (List.get?_mem hget)
  · intro hp b hb
    obtain ⟨n, hn⟩ := List.mem_iff_get?.mp hb
    have hnk : n < k := by
      have hlen : n < ((l.drop i).take k).length := (List.get?_eq_some.mp hn).1
      simp only [List.length_take, List.length_drop, lt_min_iff] at hlen
      exact hlen.1
    rw [List.get?_take hnk, List.get?_drop] at hn
    have hb' : b = l.getD (i + n) false := by
      rw [List.getD_eq_get?, hn]
      rfl
    have := hp n hnk
    simp only [id]
    rw [hb']
    exact this

lemma findRunFrom_some_iff (above : List Bool) (k : ℕ) :
    ∀ i m, findRunFrom above k i = some m ↔
      (i ≤ m ∧ m + k ≤ above.length ∧ runAt above k m = true ∧
        ∀ j, i ≤ j → j < m → runAt above k j = false) := by
  have H : ∀ fuel i m, above.length + 1 - i ≤ fuel →
      (findRunFrom above k i = some m ↔
        (i ≤ m ∧ m + k ≤ above.length ∧ runAt above k m = true ∧
          ∀ j, i ≤ j → j < m → runAt above k j = false)) := by
    intro fuel
    induction fuel with
    | zero =>
      intro i m hfuel
      have hc : ¬ (i + k ≤ above.length) := by omega
      rw [findRunFrom, dif_neg hc]
      constructor
      · intro habs
        exact absurd habs (by simp)
      · rintro ⟨h1, h2, -, -⟩
        omega
    | succ fuel ih =>
      intro i m hfuel
      rw [findRunFrom]
      by_cases hc : i + k ≤ above.length
      · rw [dif_pos hc]
        by_cases hr : runAt above k i = true
        · rw [if_pos hr]
          constructor
          · rintro h
            have hm : m = i := by simpa using h.symm
            subst hm
            exact ⟨le_rfl, hc, hr, fun j h1 h2 => absurd (lt_of_le_of_lt h1 h2) (lt_irrefl _)⟩
          · rintro ⟨h1, h2, h3, h4⟩
            rcases eq_or_lt_of_le h1 with rfl | hlt
            · rfl
            · exact absurd hr (by simp [h4 i le_rfl hlt])
        · rw [if_neg hr, ih (i + 1) m (by omega)]
          constructor
          · rintro ⟨h1, h2, h3, h4⟩
            refine ⟨by omega, h2, h3, fun j hj1 hj2 => ?_⟩
            rcases eq_or_lt_of_le hj1 with rfl | hlt
            · exact Bool.not_eq_true _ |>.mp hr
            · exact h4 j (by omega) hj2
          · rintro ⟨h1, h2, h3, h4⟩
            have hne : i ≠ m := by
              rintro rfl
              exact hr h3
            exact ⟨by omega, h2, h3, fun j hj1 hj2 => h4 j (by omega) hj2⟩
      · rw [dif_neg hc]
        constructor
        · intro habs
          exact absurd habs (by simp)
        · rintro ⟨h1, h2, -, -⟩
          omega
  intro i m
  exact H (above.length + 1 - i) i m le_rfl

lemma findRunFrom_none_iff (above : List Bool) (k : ℕ) :
    ∀ i, findRunFrom above k i = none ↔
      ∀ j, i ≤ j → j + k ≤ above.length → runAt above k j = false := by
  have H : ∀ fuel i, above.length + 1 - i ≤ fuel →
      (findRunFrom above k i = none ↔
        ∀ j, i ≤ j → j + k ≤ above.length → runAt above k j = false) := by
    intro fuel
    induction fuel with
    | zero =>
      intro i hfuel
      have hc : ¬ (i + k ≤ above.length) := by omega
      rw [findRunFrom, dif_neg hc]
      constructor
      · intro _ j hj1 hj2
        omega
      · intro _
        rfl
    | succ fuel ih =>
      intro i hfuel
      rw [findRunFrom]
      by_cases hc : i + k ≤ above.length
      · rw [dif_pos hc]
        by_cases hr : runAt above k i = true
        · rw [if_pos hr]
          constructor
          · intro habs
            exact absurd habs (by simp)
          · intro hall
            exact absurd hr (by simp [hall i le_rfl hc])
        · rw [if_neg hr, ih (i + 1) (by omega)]
          constructor
          · intro hall j hj1 hj2
            rcases eq_or_lt_of_le hj1 with rfl | hlt
            · exact Bool.not_eq_true _ |>.mp hr
            · exact hall j (by omega) hj2
          · intro hall j hj1 hj2
            exact hall j (by omega) hj2
      · rw [dif_neg hc]
        constructor
        · intro _ j hj1 hj2
          omega
        · intro _
          rfl
  intro i
  exact H (above.length + 1 - i) i le_rfl

lemma above_getD (rows : List ProcRow) (t : ℝ) (m : ℕ) (hm : m < rows.length) :
    (rows.map (fun r => exceeds r.jerk_magnitude t)).getD m false =
      exceeds (jerkAt rows m) t := by
  rw [List.getD_eq_get _ false (by simpa using hm), List.get_map]
  unfold jerkAt
  rw [List.get?_eq_get hm]
  rfl

lemma specRun_iff_runAt (rows : List ProcRow) (t : ℝ) (k i : ℕ)
    (h : i + k ≤ rows.length) :
    specRun rows t k i ↔
      runAt (rows.map (fun r => exceeds r.jerk_magnitude t)) k i = true := by
  rw [runAt_eq_true_iff _ _ _ (by simpa using h)]
  unfold specRun
  constructor
  · intro hs j hj
    rw [above_getD rows t (i + j) (by omega)]
    exact hs.2 j hj
  · intro hs
    refine ⟨h, fun j hj => ?_⟩
    rw [← above_getD rows t (i + j) (by omega)]
    exact hs j hj

/-- C2: reaction detection.  (1) With a positive minimum run length `k`,
`detect_reaction_frame` returns `some f` exactly when there is a first series
index `i` such that the `k` consecutive jerk samples starting at `i` all
exceed the threshold, and `f` is the `frame_id` of row `i`.  (2) When no such
run exists the result is `None`; (3) in particular every series shorter than
`k` gives `None`.  (4) Whenever detection reports no reaction,
`calculate_rtd` returns the length of the player's series. -/
theorem c2_reaction_detection :
    (∀ (rows : List ProcRow) (t : ℝ) (k : ℕ) (f : ℤ), 1 ≤ k →
      (detectReactionFrame rows t k = some f ↔
        ∃ i, specRun rows t k i ∧ (∀ j < i, ¬ specRun rows t k j) ∧
          (rows.get? i).map (fun r => r.frame_id) = some f))
    ∧ (∀ (rows : List ProcRow) (t : ℝ) (k : ℕ),
        (∀ i, ¬ specRun rows t k i) → detectReactionFrame rows t k = none)
    ∧ (∀ (rows : List ProcRow) (t : ℝ) (k : ℕ),
        rows.length < k → detectReactionFrame rows t k = none)
    ∧ (∀ (rows : List ProcRow) (role : String),
        detectReactionFrame rows (jerkThresholds role) 2 = none →
        calculateRtd rows role = (rows.length : ℝ)) := by
  have hnone : ∀ (rows : List ProcRow) (t : ℝ) (k : ℕ),
      (∀ i, ¬ specRun rows t k i) → detectReactionFrame rows t k = none := by
    intro rows t k hno
    unfold detectReactionFrame
    have : findRunFrom (rows.map (fun r => exceeds r.jerk_magnitude t)) k 0 = none := by
      rw [findRunFrom_none_iff]
      intro j _ hj2
      have hj2' : j + k ≤ rows.length := by simpa using hj2
      by_contra hcon
      have : specRun rows t k j := by
        rw [specRun_iff_runAt rows t k j hj2']
        exact Bool.of_not_eq_false hcon
      exact hno j this
    rw [this]
    rfl
  refine ⟨?_, hnone, ?_, ?_⟩
  · intro rows t k f hk
    unfold detectReactionFrame
    simp only [Option.bind_eq_some]
    constructor
    · rintro ⟨i, hf, hmap⟩
      rw [findRunFrom_some_iff] at hf
      obtain ⟨-, h2, h3, h4⟩ := hf
      have h2' : i + k ≤ rows.length := by simpa using h2
      refine ⟨i, (specRun_iff_runAt rows t k i h2').mpr h3, fun j hj => ?_, hmap⟩
      intro hcon
      have hj2 : j + k ≤ rows.length := hcon.1
      rw [specRun_iff_runAt rows t k j hj2] at hcon
      rw [h4 j (Nat.zero_le j) hj] at hcon
      exact Bool.false_ne_true hcon
    · rintro ⟨i, hrun, hfirst, hmap⟩
      refine ⟨i, ?_, hmap⟩
      rw [findRunFrom_some_iff]
      have h2 := hrun.1
      refine ⟨Nat.zero_le i, by simpa using h2,
        (specRun_iff_runAt rows t k i h2).mp hrun, fun j _ hj => ?_⟩
      by_contra hcon
      have hj2 : j + k ≤ rows.length := by omega
      have : specRun rows t k j :=
        (specRun_iff_runAt rows t k j hj2).mpr (Bool.of_not_eq_false hcon)
      exact hfirst j hj this
  · intro rows t k hlen
    apply hnone
    intro i hcon
    have := hcon.1
    omega
  · intro rows role hdet
    unfold calculateRtd
    rw [hdet]

lemma length_insertByFrame (r : RawRow) (l : List RawRow) :
    (insertByFrame r l).length = l.length + 1 := by
  induction l with
  | nil => rfl
  | cons s t ih =>
    unfold insertByFrame
    by_cases h : r.frame_id ≤ s.frame_id
    · rw [if_pos h]
      rfl
    · rw [if_neg h]
      simp [ih]

lemma length_sortByFrame (rows : List RawRow) :
    (sortByFrame rows).length = rows.length := by
  unfold sortByFrame
  induction rows with
  | nil => rfl
  | cons r t ih => simp [List.foldr_cons, length_insertByFrame, ih]

lemma length_processPlayerTracking (σ : ℝ) (rows : List RawRow) :
    (processPlayerTracking σ rows).length = rows.length := by
  unfold processPlayerTracking
  simp [length_sortByFrame]

lemma zipWith_some_comp {α β : Type} (f : α → β → ℝ) (as : List α) (bs : List β) :
    List.zipWith (fun a b => some (f a b)) as bs = (List.zipWith f as bs).map some := by
  induction as generalizing bs with
  | nil => simp
  | cons a t ih =>
    cases bs with
    | nil => simp
    | cons b u => simp [ih]

lemma cumsumSkipAux_map_some_get (xs : List ℝ) :
    ∀ (acc : ℝ) (i : ℕ), i < xs.length →
      (cumsumSkipAux acc (xs.map some)).get? i = some (some (acc + (xs.take (i + 1)).sum)) := by
  induction xs with
  | nil =>
    intro acc i h
    exact absurd h (by simp)
  | cons v t ih =>
    intro acc i h
    cases i with
    | zero => simp [cumsumSkipAux]
    | succ j =>
      have hj : j < t.length := by simpa using h
      simp only [List.map_cons, cumsumSkipAux, List.get?_cons_succ]
      rw [ih (acc + v) j hj]
      simp [add_assoc]

lemma take_sum_eq_range (xs : List ℝ) :
    ∀ i, i ≤ xs.length → (xs.take i).sum = ∑ j in Finset.range i, xs.getD j 0 := by
  induction xs with
  | nil =>
    intro i h
    have : i = 0 := by simpa using h
    simp [this]
  | cons v t ih =>
    intro i h
    cases i with
    | zero => simp
    | succ j =>
      have hj : j ≤ t.length := by simpa using h
      rw [List.take_succ_cons, List.sum_cons, ih j hj, Finset.sum_range_succ']
      simp [List.getD_cons_succ, List.getD_cons_zero, add_comm]

lemma frameDist_eq (p : ℚ × ℚ) (t : List (ℚ × ℚ)) :
    frameDist (p :: t) = none :: (List.zipWith dist2 (p :: t) t).map some := by
  rw [show frameDist (p :: t) = none :: List.zipWith (fun a b => some (dist2 a b)) (p :: t) t
    from rfl, zipWith_some_comp]

lemma zipWith_dist2_getD (pts t : List (ℚ × ℚ)) (hpt : pts.tail = t) (m : ℕ)
    (hm : m < (List.zipWith dist2 pts t).length) :
    (List.zipWith dist2 pts t).getD m 0 =
      dist2 (pts.getD m (0, 0)) (pts.getD (m + 1) (0, 0)) := by
  subst hpt
  have hlen : (List.zipWith dist2 pts pts.tail).length = pts.tail.length := by
    cases pts with
    | nil => simp
    | cons a u =>
      simp only [List.length_zipWith, List.tail_cons, List.length_cons]
      omega
  have hm1 : m < pts.tail.length := by omega
  have hm2 : m < pts.length := by
    cases pts with
    | nil => simp at hm1
    | cons a u => simp at hm1 ⊢; omega
  rw [List.getD_eq_get _ 0 hm, List.get_zipWith]
  have htail : pts.tail.get ⟨m, hm1⟩ = pts.get ⟨m + 1, by
      cases pts with
      | nil => simp at hm1
      | cons a u => simpa using hm1⟩ := by
    cases pts with
    | nil => simp at hm1
    | cons a u => rfl
  rw [List.getD_eq_get _ _ hm2, List.getD_eq_get _ _ (by
    cases pts with
    | nil => simp at hm1
    | cons a u => simpa using hm1)]
  congr 1

lemma processPlayerTracking_singleton (σ : ℝ) (r : RawRow) :
    processPlayerTracking σ [r] =
      [{ frame_id := r.frame_id, x := r.x, y := r.y, speed_calc := none,
         direction_calc := none, jerk_magnitude := none, path_efficiency := 1,
         curvature := some 0 }] := by
  unfold processPlayerTracking
  simp [sortByFrame, insertByFrame, smoothIf, odiff, omap2, calculatePathMetrics,
    frameDist, cumsumSkip, cumsumSkipAux, List.range_succ]

lemma pathMetrics_pe_sld (pts : List (ℚ × ℚ)) (dirs : Option (List (Option ℝ))) (i : ℕ)
    (h2 : 2 ≤ pts.length) (hi : i < pts.length) :
    ∃ row : PathRow, (calculatePathMetrics pts dirs).get? i = some row ∧
      row.path_efficiency =
        (if 0.1 < specPL pts i then specSLD pts i / specPL pts i else 1) ∧
      row.straight_line_dist = specSLD pts i := by
  obtain ⟨p, t, rfl⟩ : ∃ p t, pts = p :: t := by
    cases pts with
    | nil => simp at h2
    | cons p t => exact ⟨p, t, rfl⟩
  have hnlt : ¬((p :: t).length < 2) := by omega
  unfold calculatePathMetrics
  rw [if_neg hnlt]
  simp only [List.get?_map, List.get?_range hi, Option.map_some']
  refine ⟨_, rfl, ?_, ?_⟩
  · have hzw : (List.zipWith dist2 (p :: t) t).length = t.length := by
      simp only [List.length_zipWith, List.length_cons]
      omega
    have hsld : ((p :: t).map (fun q => dist2 ((p :: t).headD (0, 0)) q)).get? i =
        some (specSLD (p :: t) i) := by
      rw [List.get?_map, List.get?_eq_get hi]
      simp only [Option.map_some']
      unfold specSLD
      rw [List.getD_eq_get _ _ hi]
      rfl
    cases i with
    | zero =>
      rw [List.get?_zipWith']
      have hpl0 : (cumsumSkip (frameDist (p :: t))).get? 0 = some none := by
        rw [frameDist_eq]
        rfl
      rw [hpl0, hsld]
      have h0 : specPL (p :: t) 0 = 0 := by simp [specPL]
      rw [h0]
      norm_num
    | succ j =>
      rw [List.get?_zipWith']
      have hj : j < t.length := by
        simp only [List.length_cons] at hi
        omega
      have hplj : (cumsumSkip (frameDist (p :: t))).get? (j + 1) =
          some (some (specPL (p :: t) (j + 1))) := by
        rw [frameDist_eq]
        have : (cumsumSkip (none :: (List.zipWith dist2 (p :: t) t).map some)).get? (j + 1)
            = (cumsumSkipAux 0 ((List.zipWith dist2 (p :: t) t).map some)).get? j := rfl
        rw [this, cumsumSkipAux_map_some_get _ 0 j (by omega)]
        congr 2
        rw [zero_add, take_sum_eq_range _ (j + 1) (by omega)]
        apply Finset.sum_congr rfl
        intro m hm
        have hm' : m < j + 1 := Finset.mem_range.mp hm
        exact zipWith_dist2_getD (p :: t) t rfl m (by omega)
      rw [hplj, hsld]
      rfl
  · rw [List.get?_eq_get hi]
    simp only [Option.map_some', Option.getD_some]
    unfold specSLD
    rw [List.getD_eq_get _ _ hi]
    rfl

/-- C3: path metrics.  (1) For a series of at least 2 samples, the
path-efficiency column at each row equals straight-line distance divided by
the cumulative path length so far when that length exceeds the 0.1-yard
epsilon and 1.0 otherwise (at row 0 the cumulative length is 0, hence 1.0),
and the straight-line column is the distance from the first sample.  (2) For
fewer than 2 samples every row is the degenerate constant row: path length 0,
straight-line distance 0, path efficiency 1.0, curvature 0.  (3)
TrajectoryEfficiency — the final path-efficiency value clamped to [0, 1] —
equals exactly 1.0 for a 1-sample series run through the full pipeline (the
spec's KinematicsEngine contract requires at least 1 sample, so its
degenerate case is exactly length 1; on 0 samples `.iloc[-1]` raises, which
`calculateTe = none` models). -/
theorem c3_path_metrics :
    (∀ (pts : List (ℚ × ℚ)) (dirs : Option (List (Option ℝ))) (i : ℕ),
      2 ≤ pts.length → i < pts.length →
      ∃ row : PathRow, (calculatePathMetrics pts dirs).get? i = some row ∧
        row.path_efficiency =
          (if 0.1 < specPL pts i then specSLD pts i / specPL pts i else 1) ∧
        row.straight_line_dist = specSLD pts i)
    ∧ (∀ (pts : List (ℚ × ℚ)) (dirs : Option (List (Option ℝ))),
        pts.length < 2 →
        ∀ row ∈ calculatePathMetrics pts dirs,
          row = ⟨some 0, 0, 1, some 0⟩)
    ∧ (∀ (σ : ℝ) (rows : List RawRow), rows.length = 1 →
        calculateTe (processPlayerTracking σ rows) = some 1) := by
  refine ⟨fun pts dirs i h2 hi => pathMetrics_pe_sld pts dirs i h2 hi, ?_, ?_⟩
  · intro pts dirs hlt row hrow
    unfold calculatePathMetrics at hrow
    rw [if_pos hlt] at hrow
    simp only [List.mem_map] at hrow
    obtain ⟨x, -, h⟩ := hrow
    exact h.symm
  · intro σ rows h1
    obtain ⟨r, rfl⟩ := List.length_eq_one.mp h1
    rw [processPlayerTracking_singleton]
    simp only [calculateTe, List.getLast?_singleton, Option.map_some']
    have : clip 1 0 1 = 1 := by
      unfold clip
      norm_num
    rw [this]

lemma pairSep_eq_sqrt_sqDist (u : (ℤ × ℚ × ℚ) × (ℤ × ℚ × ℚ)) :
    pairSep u = Real.sqrt ((sqDist u : ℝ)) := by
  unfold pairSep sqDist
  push_cast
  ring_nf

lemma sqDist_nonneg (u : (ℤ × ℚ × ℚ) × (ℤ × ℚ × ℚ)) : 0 ≤ sqDist u := by
  unfold sqDist
  positivity

lemma sqDist_eq_of_relDisp {u v : (ℤ × ℚ × ℚ) × (ℤ × ℚ × ℚ)}
    (h : relDisp u = relDisp v) : sqDist u = sqDist v := by
  have h1 := congrArg Prod.fst h
  have h2 := congrArg Prod.snd h
  simp only [relDisp] at h1 h2
  unfold sqDist
  rw [h1, h2]

lemma calculateSd_eq (a b : List (ℤ × ℚ × ℚ))
    (pr qr : (ℤ × ℚ × ℚ) × (ℤ × ℚ × ℚ))
    (h2 : 2 ≤ (mergeByFrame a b).length)
    (hh : (mergeByFrame a b).head? = some pr)
    (hl : (mergeByFrame a b).getLast? = some qr) :
    calculateSd a b = pairSep qr - pairSep pr := by
  unfold calculateSd calculatePlayerSeparation
  have hlen : ¬ (((mergeByFrame a b).map (fun p =>
      (p.1.1, Real.sqrt (((p.1.2.1 : ℝ) - (p.2.2.1 : ℝ)) ^ 2
        + ((p.1.2.2 : ℝ) - (p.2.2.2 : ℝ)) ^ 2)))).length < 2) := by
    rw [List.length_map]
    omega
  rw [if_neg hlen, List.getLast?_map, List.head?_map, hh, hl]
  rfl

lemma calculateSd_short (a b : List (ℤ × ℚ × ℚ))
    (h : (mergeByFrame a b).length < 2) : calculateSd a b = 0 := by
  unfold calculateSd calculatePlayerSeparation
  rw [if_pos (by rw [List.length_map]; omega)]

/-- C4: SeparationDelta.  Over the inner join of the two series on frame id
(pandas keeps the left series' order, so for frame-sorted input the join's
first/last entries are the first/last common frames): the result is the
pairwise Euclidean distance at the last joined frame minus the distance at
the first joined frame; it is 0.0 when fewer than 2 common frames exist,
strictly positive when the entities end farther apart (larger squared
distance) than they began, strictly negative when they end closer, and
exactly 0.0 when the relative displacement never changes (zero relative
motion). -/
theorem c4_separation_delta :
    (∀ (a b : List (ℤ × ℚ × ℚ)) (pr qr : (ℤ × ℚ × ℚ) × (ℤ × ℚ × ℚ)),
      2 ≤ (mergeByFrame a b).length →
      (mergeByFrame a b).head? = some pr →
      (mergeByFrame a b).getLast? = some qr →
      calculateSd a b = pairSep qr - pairSep pr ∧
      (sqDist pr < sqDist qr → 0 < calculateSd a b) ∧
      (sqDist qr < sqDist pr → calculateSd a b < 0))
    ∧ (∀ (a b : List (ℤ × ℚ × ℚ)),
        (mergeByFrame a b).length < 2 → calculateSd a b = 0)
    ∧ (∀ (a b : List (ℤ × ℚ × ℚ)),
        (∀ u ∈ mergeByFrame a b, ∀ v ∈ mergeByFrame a b, relDisp u = relDisp v) →
        calculateSd a b = 0) := by
  refine ⟨?_, calculateSd_short, ?_⟩
  · intro a b pr qr h2 hh hl
    have heq := calculateSd_eq a b pr qr h2 hh hl
    refine ⟨heq, ?_, ?_⟩
    · intro hlt
      rw [heq, sub_pos, pairSep_eq_sqrt_sqDist, pairSep_eq_sqrt_sqDist]
      exact Real.sqrt_lt_sqrt (by exact_mod_cast sqDist_nonneg pr) (by exact_mod_cast hlt)
    · intro hlt
      rw [heq, sub_neg, pairSep_eq_sqrt_sqDist, pairSep_eq_sqrt_sqDist]
      exact Real.sqrt_lt_sqrt (by exact_mod_cast sqDist_nonneg qr) (by exact_mod_cast hlt)
  · intro a b hconst
    by_cases hlen : (mergeByFrame a b).length < 2
    · exact calculateSd_short a b hlen
    · have hne : mergeByFrame a b ≠ [] := by
        intro hnil
        rw [hnil] at hlen
        simp at hlen
      have hh := List.head?_eq_head hne
      have hl := List.getLast?_eq_getLast _ hne
      rw [calculateSd_eq a b _ _ (by omega) hh hl,
        pairSep_eq_sqrt_sqDist, pairSep_eq_sqrt_sqDist,
        sqDist_eq_of_relDisp
          (hconst _ (List.getLast_mem hne) _ (List.head_mem hne))]
      exact sub_self _

lemma rmod_sub_int (x : ℝ) (k : ℤ) : rmod (x - 360 * k) 360 = rmod x 360 := by
  unfold rmod
  have h : (x - 360 * k) / 360 = x / 360 - k := by ring
  rw [h, Int.floor_sub_int]
  push_cast
  ring

lemma meanSkip_map_some (xs : List ℝ) (h : xs.length ≠ 0) :
    meanSkip (xs.map some) = some (xs.sum / xs.length) := by
  unfold meanSkip
  rw [List.filterMap_map]
  have hid : List.filterMap (id ∘ some) xs = xs := by
    rw [show (id ∘ some : ℝ → Option ℝ) = some from rfl]
    exact List.filterMap_some xs
  rw [hid, if_neg h]

/-- C5: CoverageMaintenanceScore.  For every defender series whose
movement-direction column is defined at every frame and every fixed target
point, `calculate_cms` equals the spec formula: neutral 0.5 under 3 frames,
else `1 − (mean over all frames of |wrapped (bearing − direction)|) / 180`
clamped to [0, 1], where the bearing is `degrees(arctan2(by − y, bx − x))`
(the code's extra `% 360` on the bearing does not change the wrapped
difference). -/
theorem c5_coverage_maintenance (rows : List ProcRow) (ball : ℚ × ℚ)
    (hdirs : ∀ r ∈ rows, r.direction_calc.isSome) :
    calculateCms rows ball = some (specCms rows ball) := by
  unfold calculateCms specCms
  by_cases hlen : rows.length < 3
  · rw [if_pos hlen, if_pos hlen]
  · rw [if_neg hlen, if_neg hlen]
    have hmap : rows.map (fun r =>
        r.direction_calc.map (fun d =>
          |rmod (rmod (degOf (atan2 ((ball.2 : ℝ) - (r.y : ℝ)) ((ball.1 : ℝ) - (r.x : ℝ)))) 360
            - d + 180) 360 - 180|)) =
        (rows.map (fun r =>
          |wrap180 (specBearing (r.x, r.y) ball - r.direction_calc.getD 0)|)).map some := by
      rw [List.map_map]
      apply List.map_congr_left
      intro r hr
      obtain ⟨d, hd⟩ := Option.isSome_iff_exists.mp (hdirs r hr)
      simp only [Function.comp_apply]
      rw [hd]
      simp only [Option.map_some', Option.getD_some]
      congr 1
      have hsplit : rmod (degOf (atan2 ((ball.2 : ℝ) - (r.y : ℝ)) ((ball.1 : ℝ) - (r.x : ℝ)))) 360
            - d + 180 =
          (degOf (atan2 ((ball.2 : ℝ) - (r.y : ℝ)) ((ball.1 : ℝ) - (r.x : ℝ))) - d + 180)
            - 360 * (⌊degOf (atan2 ((ball.2 : ℝ) - (r.y : ℝ)) ((ball.1 : ℝ) - (r.x : ℝ))) / 360⌋ : ℤ) := by
        unfold rmod
        ring
      rw [hsplit, rmod_sub_int]
      unfold wrap180 specBearing
      rfl
    rw [hmap, meanSkip_map_some _ (by rw [List.length_map]; omega)]
    simp only [Option.map_some', List.length_map]

/-- C5 witness: the theorem applied to a concrete 3-frame defender series
with defined movement directions. -/
theorem c5_coverage_maintenance_witness :
    calculateCms
      [⟨1, 0, 0, none, some 0, none, 1, none⟩,
       ⟨2, 1, 0, none, some 0, none, 1, none⟩,
       ⟨3, 2, 0, none, some 45, none, 1, none⟩] (10, 0) =
      some (specCms
        [⟨1, 0, 0, none, some 0, none, 1, none⟩,
         ⟨2, 1, 0, none, some 0, none, 1, none⟩,
         ⟨3, 2, 0, none, some 45, none, 1, none⟩] (10, 0)) :=
  c5_coverage_maintenance _ _ (by
    intro r hr
    simp only [List.mem_cons, List.not_mem_nil, or_false] at hr
    rcases hr with rfl | rfl | rfl <;> rfl)

lemma foldl_argmax_spec (t : List (ℕ × ℝ)) :
    ∀ p : ℕ × ℝ,
      (t.foldl (fun best q => if best.2 < q.2 then q else best) p) ∈ p :: t ∧
      ∀ q ∈ p :: t, q.2 ≤ (t.foldl (fun best q => if best.2 < q.2 then q else best) p).2 := by
  induction t with
  | nil =>
    intro p
    refine ⟨by simp, ?_⟩
    intro q hq
    simp only [List.foldl_nil]
    simp only [List.mem_singleton] at hq
    rw [hq]
  | cons a u ih =>
    intro p
    rw [List.foldl_cons]
    by_cases hpa : p.2 < a.2
    · rw [if_pos hpa]
      obtain ⟨hmem, hbound⟩ := ih a
      refine ⟨List.mem_cons_of_mem _ hmem, ?_⟩
      intro q hq
      rcases List.mem_cons.mp hq with rfl | hq'
      · exact le_trans (le_of_lt hpa) (hbound a (List.mem_cons_self _ _))
      · rcases List.mem_cons.mp hq' with rfl | hq''
        · exact hbound q (List.mem_cons_self _ _)
        · exact hbound q (List.mem_cons_of_mem _ hq'')
    · rw [if_neg hpa]
      obtain ⟨hmem, hbound⟩ := ih p
      constructor
      · rcases List.mem_cons.mp hmem with h | h
        · rw [h]
          exact List.mem_cons_self _ _
        · exact List.mem_cons_of_mem _ (List.mem_cons_of_mem _ h)
      · intro q hq
        rcases List.mem_cons.mp hq with rfl | hq'
        · exact hbound q (List.mem_cons_self _ _)
        · rcases List.mem_cons.mp hq' with rfl | hq''
          · exact le_trans (le_of_not_lt hpa) (hbound p (List.mem_cons_self _ _))
          · exact hbound q (List.mem_cons_of_mem _ hq'')

lemma validCurv_mem_eq (rows : List ProcRow) (q : ℕ × ℝ) (hq : q ∈ validCurv rows) :
    (rows.get? q.1).bind (fun r => r.curvature) = some q.2 := by
  unfold validCurv at hq
  rw [List.mem_filterMap] at hq
  obtain ⟨i, -, hi⟩ := hq
  rw [Option.map_eq_some'] at hi
  obtain ⟨c, hc, hqc⟩ := hi
  subst hqc
  simpa using hc

/-- C6: BreakPointQuality.  For a series of at least 3 frames: with some
valid curvature present, the auto-detected result is exactly
`0.6 × speed-maintenance + 0.4 × curvature-score` at the break position — the
first row of maximal valid curvature (second conjunct: that position carries
a valid curvature value bounding every valid curvature) — where
speed-maintenance is `min(post/(pre+0.1), 1)` over the ±3-frame window with
the 0.5 near-stationary fallback, and curvature-score is
`min(curvature/50, 1)`; the same formula holds at a caller-supplied break
frame resolved to its first matching row; an all-NaN curvature column
defaults the quality to 0.5; fewer than 3 frames gives 0.5.  The result is a
real number in every case — never NaN. -/
theorem c6_break_quality :
    (∀ rows : List ProcRow, 3 ≤ rows.length → (validCurv rows).length ≠ 0 →
      calculateBreakQuality rows none =
        0.6 * specSpeedMaintenance rows (specBreakPos rows)
          + 0.4 * specCurvScore rows (specBreakPos rows))
    ∧ (∀ rows : List ProcRow, (validCurv rows).length ≠ 0 →
        ∃ c, ((rows.get? (specBreakPos rows)).bind (fun r => r.curvature)) = some c ∧
          ∀ q ∈ validCurv rows, q.2 ≤ c)
    ∧ (∀ (rows : List ProcRow) (bf : ℤ) (pos : ℕ), 3 ≤ rows.length →
        (validCurv rows).length ≠ 0 →
        (List.range rows.length).find? (fun i =>
          ((rows.get? i).map (fun r => r.frame_id)).getD 0 == bf) = some pos →
        calculateBreakQuality rows (some bf) =
          0.6 * specSpeedMaintenance rows pos + 0.4 * specCurvScore rows pos)
    ∧ (∀ (rows : List ProcRow) (bf : Option ℤ), 3 ≤ rows.length →
        (validCurv rows).length = 0 → calculateBreakQuality rows bf = 1 / 2)
    ∧ (∀ (rows : List ProcRow) (bf : Option ℤ), rows.length < 3 →
        calculateBreakQuality rows bf = 1 / 2) := by
  refine ⟨?_, ?_, ?_, ?_, ?_⟩
  · intro rows h3 hv
    unfold calculateBreakQuality
    rw [if_neg (by omega), if_neg hv]
    unfold specSpeedMaintenance specPreSpeed specPostSpeed specCurvScore specBreakPos meanOr0
    rfl
  · intro rows hv
    obtain ⟨p, t, hval⟩ : ∃ p t, validCurv rows = p :: t := by
      cases hvc : validCurv rows with
      | nil => rw [hvc] at hv; simp at hv
      | cons p t => exact ⟨p, t, rfl⟩
    obtain ⟨hmem, hbound⟩ := foldl_argmax_spec t p
    have hbp : specBreakPos rows =
        (t.foldl (fun best q => if best.2 < q.2 then q else best) p).1 := by
      unfold specBreakPos firstArgmax
      rw [hval]
    refine ⟨(t.foldl (fun best q => if best.2 < q.2 then q else best) p).2, ?_, ?_⟩
    · rw [hbp]
      exact validCurv_mem_eq rows _ (by rw [hval]; exact hmem)
    · intro q hq
      rw [hval] at hq
      exact hbound q hq
  · intro rows bf pos h3 hv hfind
    unfold calculateBreakQuality
    rw [if_neg (by omega), if_neg hv]
    simp only [hfind]
    unfold specSpeedMaintenance specPreSpeed specPostSpeed specCurvScore meanOr0
    rfl
  · intro rows bf h3 hv0
    unfold calculateBreakQuality
    rw [if_neg (by omega), if_pos hv0]
  · intro rows bf hlt
    unfold calculateBreakQuality
    rw [if_pos hlt]

/-- C7 counterexample: `Pass Block` is a role label outside the spec's five
listed labels, yet the code's `JERK_THRESHOLDS` maps it to 10.0, not the
default 8.0 — so an "unlisted" role does not always fall back to the default
jerk threshold. -/
theorem c7_role_fallback_counterexample :
    "Pass Block" ∉ ["Defensive Coverage", "Targeted Receiver", "Pass Route",
      "Pass Rush", "default"] ∧
    jerkThresholds "Pass Block" = 10 ∧
    jerkThresholds "default" = 8 ∧
    jerkThresholds "Pass Block" ≠ jerkThresholds "default" := by
  have hpb : jerkThresholds "Pass Block" = 10 := by
    unfold jerkThresholds
    rw [if_neg (by decide), if_neg (by decide), if_neg (by decide), if_neg (by decide),
      if_pos rfl]
    norm_num
  have hd : jerkThresholds "default" = 8 := by
    unfold jerkThresholds
    rw [if_neg (by decide), if_neg (by decide), if_neg (by decide), if_neg (by decide),
      if_neg (by decide)]
    norm_num
  refine ⟨by decide, hpb, hd, ?_⟩
  rw [hpb, hd]
  norm_num

/-- C7 (amended): for every role label other than `Defensive Coverage`,
`Targeted Receiver`, `Pass Route`, `Pass Rush` and `Pass Block` (the code's
threshold table carries a sixth `Pass Block` entry with threshold 10.0, which
the original claim's five-label list misses), the pipeline uses the
`default` weights and normalization — so composite RAI agrees with the
literal `default` label on identical inputs — and the jerk threshold used for
reaction detection is the default 8.0, making reaction delay agree with
`default` as well; never an error. -/
theorem c7_role_fallback_amended (role : String)
    (h1 : role ≠ "Defensive Coverage") (h2 : role ≠ "Targeted Receiver")
    (h3 : role ≠ "Pass Route") (h4 : role ≠ "Pass Rush")
    (h5 : role ≠ "Pass Block") :
    roleWeights role = roleWeights "default" ∧
    (∀ components, calculateCompositeRai components role =
      calculateCompositeRai components "default") ∧
    jerkThresholds role = jerkThresholds "default" ∧
    jerkThresholds role = 8 ∧
    (∀ rows, calculateRtd rows role = calculateRtd rows "default") := by
  have hw : roleWeights role = roleWeights "default" := by
    simp [roleWeights, h1, h2, h3, h4]
  have hj : jerkThresholds role = 8 := by
    simp only [jerkThresholds, if_neg h1, if_neg h4, if_neg h3, if_neg h2, if_neg h5]
    norm_num
  have hjd : jerkThresholds "default" = 8 := by
    unfold jerkThresholds
    rw [if_neg (by decide), if_neg (by decide), if_neg (by decide), if_neg (by decide),
      if_neg (by decide)]
    norm_num
  refine ⟨hw, ?_, by rw [hj, hjd], hj, ?_⟩
  · intro components
    unfold calculateCompositeRai
    rw [hw]
  · intro rows
    unfold calculateRtd
    rw [hj, hjd]

/-- C7 witness: the amended theorem applied to the concrete unlisted role
label `Quarterback`. -/
theorem c7_role_fallback_witness :
    roleWeights "Quarterback" = roleWeights "default" ∧
    (∀ components, calculateCompositeRai components "Quarterback" =
      calculateCompositeRai components "default") ∧
    jerkThresholds "Quarterback" = jerkThresholds "default" ∧
    jerkThresholds "Quarterback" = 8 ∧
    (∀ rows, calculateRtd rows "Quarterback" = calculateRtd rows "default") :=
  c7_role_fallback_amended "Quarterback" (by decide) (by decide) (by decide)
    (by decide) (by decide)

lemma playerRole_ok (inp : InputDF) (nflId : ℤ)
    (hrole : inp.hasRoleColumn = true →
      inp.rows.filter (fun r => r.nfl_id == nflId) ≠ []) :
    ∃ ρ, playerRole inp nflId = Except.ok ρ := by
  unfold playerRole
  by_cases hc : inp.hasRoleColumn = true
  · rw [if_pos hc]
    cases hfil : inp.rows.filter (fun r => r.nfl_id == nflId) with
    | nil => exact absurd hfil (hrole hc)
    | cons r t => exact ⟨r.player_role, rfl⟩
  · rw [if_neg hc]
    exact ⟨"default", rfl⟩

lemma calculateTe_of_ne_nil (σ : ℝ) (rows : List RawRow) (hne : rows ≠ []) :
    ∃ v, calculateTe (processPlayerTracking σ rows) = some v := by
  unfold calculateTe
  have hlen : (processPlayerTracking σ rows).length ≠ 0 := by
    rw [length_processPlayerTracking]
    intro h0
    exact hne (List.length_eq_zero.mp h0)
  have hne2 : processPlayerTracking σ rows ≠ [] := by
    intro hnil
    rw [hnil] at hlen
    exact hlen rfl
  rw [List.getLast?_eq_getLast _ hne2]
  exact ⟨_, rfl⟩

lemma calculatePlayerRai_spec (σ : ℝ) (inp : InputDF) (out : List RawRow)
    (nflId : ℤ) (ballx bally : ℚ) (opp : Option (List (ℤ × ℚ × ℚ))) (ρ : String)
    (hout : (out.filter (fun r => r.nfl_id == nflId)).length ≠ 0)
    (hρ : playerRole inp nflId = Except.ok ρ) :
    ∃ res, calculatePlayerRai σ inp out nflId ballx bally opp = Except.ok res ∧
      res.player_role = ρ ∧
      res.bpq = (if ρ = "Pass Route" ∨ ρ = "Targeted Receiver" then
          calculateBreakQuality
            (processPlayerTracking σ (sortByFrame (out.filter (fun r => r.nfl_id == nflId))))
            none
        else 1 / 2) ∧
      res.cms = (if ρ = "Defensive Coverage" then
          calculateCms
            (processPlayerTracking σ (sortByFrame (out.filter (fun r => r.nfl_id == nflId))))
            (ballx, bally)
        else some (1 / 2)) ∧
      res.rtd = calculateRtd
        (processPlayerTracking σ (sortByFrame (out.filter (fun r => r.nfl_id == nflId)))) ρ ∧
      calculateTe
        (processPlayerTracking σ (sortByFrame (out.filter (fun r => r.nfl_id == nflId)))) =
        some res.te ∧
      res.sd = (match opp with
        | some oppRows => calculateSd
            ((processPlayerTracking σ (sortByFrame (out.filter (fun r => r.nfl_id == nflId)))).map
              (fun r => (r.frame_id, r.x, r.y))) oppRows
        | none => 0) := by
  unfold calculatePlayerRai
  have hlen : ¬ ((sortByFrame (out.filter (fun r => r.nfl_id == nflId))).length = 0) := by
    rw [length_sortByFrame]
    exact hout
  rw [if_neg hlen, hρ]
  have hne : sortByFrame (out.filter (fun r => r.nfl_id == nflId)) ≠ [] := by
    intro hnil
    rw [hnil] at hlen
    exact hlen rfl
  obtain ⟨v, hv⟩ := calculateTe_of_ne_nil σ _ hne
  dsimp only
  rw [hv]
  exact ⟨_, rfl, rfl, rfl, rfl, rfl, rfl, rfl⟩

/-- C8: neutral component fallback.  Whenever the per-entity pipeline
produces a record, the break-point-quality field is exactly 0.5 if the
player's role is neither `Pass Route` nor `Targeted Receiver`, and the
coverage-maintenance field is exactly 0.5 if the role is not
`Defensive Coverage`, regardless of the tracking input. -/
theorem c8_neutral_components (σ : ℝ) (inp : InputDF) (out : List RawRow)
    (nflId : ℤ) (ballx bally : ℚ) (opp : Option (List (ℤ × ℚ × ℚ)))
    (ρ : String) (res : RAIComponents)
    (hρ : playerRole inp nflId = Except.ok ρ)
    (hcalc : calculatePlayerRai σ inp out nflId ballx bally opp = Except.ok res) :
    (¬ (ρ = "Pass Route" ∨ ρ = "Targeted Receiver") → res.bpq = 1 / 2) ∧
    (ρ ≠ "Defensive Coverage" → res.cms = some (1 / 2)) := by
  have hout : (out.filter (fun r => r.nfl_id == nflId)).length ≠ 0 := by
    intro h0
    unfold calculatePlayerRai at hcalc
    rw [if_pos (by rw [length_sortByFrame]; exact h0)] at hcalc
    exact Except.noConfusion hcalc
  obtain ⟨res', hcalc', -, hbpq', hcms', -, -, -⟩ :=
    calculatePlayerRai_spec σ inp out nflId ballx bally opp ρ hout hρ
  rw [hcalc] at hcalc'
  have hres : res = res' := Except.ok.inj hcalc'
  subst hres
  constructor
  · intro h
    rw [hbpq', if_neg h]
  · intro h
    rw [hcms', if_neg h]

/-- C8 witness: a concrete `Linebacker` (neither a route-running nor a
coverage role) scores bpq = cms = 0.5. -/
theorem c8_neutral_components_witness :
    ∃ res, calculatePlayerRai 1 ⟨true, [⟨7, "Linebacker"⟩]⟩ [⟨7, 1, 0, 0⟩] 7 0 0 none =
        Except.ok res ∧ res.bpq = 1 / 2 ∧ res.cms = some (1 / 2) := by
  obtain ⟨res, hcalc, -, -, -, -, -, -⟩ :=
    calculatePlayerRai_spec 1 ⟨true, [⟨7, "Linebacker"⟩]⟩ [⟨7, 1, 0, 0⟩] 7 0 0 none
      "Linebacker" (by decide) rfl
  have hfields := c8_neutral_components 1 ⟨true, [⟨7, "Linebacker"⟩]⟩ [⟨7, 1, 0, 0⟩] 7 0 0
    none "Linebacker" res rfl hcalc
  exact ⟨res, hcalc, hfields.1 (by decide), hfields.2 (by decide)⟩

lemma mem_of_mem_uniqueIds : ∀ (l : List ℤ) (x : ℤ), x ∈ uniqueIds l → x ∈ l := by
  have H : ∀ (n : ℕ) (l : List ℤ), l.length ≤ n → ∀ x, x ∈ uniqueIds l → x ∈ l := by
    intro n
    induction n with
    | zero =>
      intro l hl x hx
      have hnil : l = [] := List.length_eq_zero.mp (by omega)
      subst hnil
      rw [uniqueIds] at hx
      exact absurd hx (List.not_mem_nil x)
    | succ n ih =>
      intro l hl x hx
      cases l with
      | nil =>
        rw [uniqueIds] at hx
        exact absurd hx (List.not_mem_nil x)
      | cons a t =>
        rw [show uniqueIds (a :: t) = a :: uniqueIds (t.filter (fun b => b ≠ a)) from
          by rw [uniqueIds]] at hx
        rcases List.mem_cons.mp hx with rfl | hx'
        · exact List.mem_cons_self _ _
        · have hlt : t.length ≤ n := by
            simp only [List.length_cons] at hl
            omega
          have hxf := ih (t.filter (fun b => b ≠ a))
            (le_trans (List.length_filter_le _ t) hlt) x hx'
          exact List.mem_cons_of_mem _ (List.mem_of_mem_filter hxf)
  intro l x hx
  exact H l.length l le_rfl x hx

lemma length_filterMap_of_isSome {α β : Type} (f : α → Option β) :
    ∀ l : List α, (∀ x ∈ l, (f x).isSome) → (l.filterMap f).length = l.length := by
  intro l
  induction l with
  | nil => intro _; rfl
  | cons a t ih =>
    intro h
    obtain ⟨b, hb⟩ := Option.isSome_iff_exists.mp (h a (List.mem_cons_self _ _))
    rw [List.filterMap_cons, hb]
    simp only [List.length_cons]
    rw [ih (fun x hx => h x (List.mem_cons_of_mem _ hx))]

/-- C9: partial-failure isolation.  (1) A play with an empty post-event
window yields an empty result table.  (2) An entity with zero post-event
rows is absent from the id enumeration and its per-entity scoring raises
(which the orchestrator's catch turns into a skip).  (3) When all enumerated
entities score successfully, the table has exactly one row per enumerated
entity — so N entities of which exactly one has zero post-event frames yield
exactly N−1 rows, and no exception escapes (the orchestrator is a total
function built from `Except.toOption`). -/
theorem c9_partial_failure :
    (∀ (σ : ℝ) (inp : InputDF) (ballx bally : ℚ),
      calculatePlayRai σ inp [] ballx bally = [])
    ∧ (∀ (σ : ℝ) (inp : InputDF) (out : List RawRow) (ballx bally : ℚ) (bad : ℤ),
        (out.filter (fun r => r.nfl_id == bad)).length = 0 →
        bad ∉ uniqueIds (out.map (fun r => r.nfl_id)) ∧
        (∃ e, calculatePlayerRai σ inp out bad ballx bally none = Except.error e))
    ∧ (∀ (σ : ℝ) (inp : InputDF) (out : List RawRow) (ballx bally : ℚ),
        (∀ nid ∈ uniqueIds (out.map (fun r => r.nfl_id)),
          ∃ res, calculatePlayerRai σ inp out nid ballx bally none = Except.ok res) →
        (calculatePlayRai σ inp out ballx bally).length =
          (uniqueIds (out.map (fun r => r.nfl_id))).length) := by
  refine ⟨?_, ?_, ?_⟩
  · intro σ inp ballx bally
    have hu : uniqueIds (([] : List RawRow).map (fun r => r.nfl_id)) = [] := by
      rw [show (([] : List RawRow).map (fun r => r.nfl_id)) = [] from rfl, uniqueIds]
    unfold calculatePlayRai
    rw [hu]
    rfl
  · intro σ inp out ballx bally bad h0
    have hfil : out.filter (fun r => r.nfl_id == bad) = [] := List.length_eq_zero.mp h0
    constructor
    · intro hmem
      obtain ⟨r, hr, hid⟩ := List.mem_map.mp (mem_of_mem_uniqueIds _ _ hmem)
      have : r ∈ out.filter (fun r => r.nfl_id == bad) :=
        List.mem_filter.mpr ⟨hr, by simp [hid]⟩
      rw [hfil] at this
      exact List.not_mem_nil r this
    · unfold calculatePlayerRai
      rw [if_pos (by rw [length_sortByFrame]; exact h0)]
      exact ⟨_, rfl⟩
  · intro σ inp out ballx bally hok
    unfold calculatePlayRai
    apply length_filterMap_of_isSome
    intro nid hnid
    obtain ⟨res, hres⟩ := hok nid hnid
    rw [hres]
    rfl

lemma calculateRtd_singleton (p : ProcRow) (role : String) :
    calculateRtd [p] role = 1 := by
  unfold calculateRtd detectReactionFrame
  rw [findRunFrom, dif_neg (by simp)]
  simp

/-- C10: per-entity raise condition.  (1) For a player whose pre-event data
has at least one row for it (or has no role column at all),
`calculate_player_rai` raises exactly when the player has zero post-event
rows.  (2) For a player with exactly one post-event frame — below the spec's
2-frame insufficiency threshold — it returns a complete record built from the
degenerate-input fallbacks: reaction delay 1 (the series length), trajectory
efficiency 1.0, neutral 0.5 break quality and coverage score, separation 0.0;
so the orchestrator only ever skips zero-frame entities. -/
theorem c10_player_raise_iff :
    (∀ (σ : ℝ) (inp : InputDF) (out : List RawRow) (nflId : ℤ) (ballx bally : ℚ)
       (opp : Option (List (ℤ × ℚ × ℚ))),
      (inp.hasRoleColumn = true → inp.rows.filter (fun r => r.nfl_id == nflId) ≠ []) →
      ((∃ e, calculatePlayerRai σ inp out nflId ballx bally opp = Except.error e) ↔
        (out.filter (fun r => r.nfl_id == nflId)).length = 0))
    ∧ (∀ (σ : ℝ) (inp : InputDF) (out : List RawRow) (nflId : ℤ) (ballx bally : ℚ)
         (ρ : String) (row : RawRow),
        playerRole inp nflId = Except.ok ρ →
        out.filter (fun r => r.nfl_id == nflId) = [row] →
        ∃ res, calculatePlayerRai σ inp out nflId ballx bally none = Except.ok res ∧
          res.rtd = 1 ∧ res.te = 1 ∧ res.bpq = 1 / 2 ∧ res.cms = some (1 / 2) ∧
          res.sd = 0) := by
  constructor
  · intro σ inp out nflId ballx bally opp hrole
    constructor
    · rintro ⟨e, he⟩
      by_contra h0
      obtain ⟨ρ, hρ⟩ := playerRole_ok inp nflId hrole
      obtain ⟨res, hok, -⟩ :=
        calculatePlayerRai_spec σ inp out nflId ballx bally opp ρ h0 hρ
      rw [he] at hok
      exact Except.noConfusion hok
    · intro h0
      unfold calculatePlayerRai
      rw [if_pos (by rw [length_sortByFrame]; exact h0)]
      exact ⟨_, rfl⟩
  · intro σ inp out nflId ballx bally ρ row hρ hfil
    have hout : (out.filter (fun r => r.nfl_id == nflId)).length ≠ 0 := by
      rw [hfil]
      simp
    obtain ⟨res, hok, -, hbpq, hcms, hrtd, hte, hsd⟩ :=
      calculatePlayerRai_spec σ inp out nflId ballx bally none ρ hout hρ
    have hsort : sortByFrame (out.filter (fun r => r.nfl_id == nflId)) = [row] := by
      rw [hfil]
      rfl
    have hproc := processPlayerTracking_singleton σ row
    refine ⟨res, hok, ?_, ?_, ?_, ?_, ?_⟩
    · rw [hrtd, hsort, hproc]
      exact calculateRtd_singleton _ ρ
    · rw [hsort, hproc] at hte
      unfold calculateTe at hte
      simp only [List.getLast?_singleton, Option.map_some', Option.some_inj] at hte
      rw [← hte]
      unfold clip
      norm_num
    · rw [hbpq]
      by_cases hc : ρ = "Pass Route" ∨ ρ = "Targeted Receiver"
      · rw [if_pos hc, hsort, hproc]
        unfold calculateBreakQuality
        rw [if_pos (by simp)]
      · rw [if_neg hc]
    · rw [hcms]
      by_cases hc : ρ = "Defensive Coverage"
      · rw [if_pos hc, hsort, hproc]
        unfold calculateCms
        rw [if_pos (by simp)]
      · rw [if_neg hc]
    · exact hsd
